import Mathlib

/-!
# Verification of `src/emu/atari.h`

A shallow embedding of the public and private interface declared in
`atari.h`: the scanline clock (`xpos`, `screenline_cpu_clock`, `cpu_clock`,
`max_ypos`), the ATR disk image header, the media type codes `AFILE_*`, the
escape codes of `enum ESCAPE` and the escape registry.

C integers are embedded as `Nat` / `Int` with explicit reduction modulo
`2 ^ 32` where the C type is `unsigned int`.
-/

namespace Atari

/-! ## Fundamental declarations -/

/-- Number of values of `unsigned int` (the header assumes that `int` is 4 bytes). -/
def UINT_MOD : Nat := 2 ^ 32

/-- Smallest value of `int`, as an integer. -/
def INT_MIN : Int := -(2 ^ 31)

/-- Largest value of `int`, as an integer. -/
def INT_MAX : Int := 2 ^ 31 - 1

/-- Conversion of an `int` operand to `unsigned int`: the value is reduced
modulo `2 ^ 32` (usual arithmetic conversions of C). -/
def toUnsigned (i : Int) : Nat := (i % (UINT_MOD : Int)).toNat

/-- The C expression `u + i` for `unsigned int u` and `int i`: `i` is converted
to `unsigned int` and the sum is taken modulo `2 ^ 32`. -/
def uaddInt (u : Nat) (i : Int) : Nat := (u + toUnsigned i) % UINT_MOD

/-! ## Video system and scanline clock -/

/-- Value of `#define TV_PAL 312`. -/
def TV_PAL : Int := 312

/-- Value of `#define TV_NTSC 262`. -/
def TV_NTSC : Int := 262

/-- Value of `#define LINE_C 114`: number of cycles per scanline. -/
def LINE_C : Int := 114

/-- Value of `#define WSYNC_C 106`: STA WSYNC resumes here. -/
def WSYNC_C : Int := 106

/-- The four `extern` variables of the timing domain:
`int tv_mode`, `int xpos`, `int xpos_limit`, `unsigned int screenline_cpu_clock`. -/
structure ClockState where
  tv_mode : Int
  xpos : Int
  xpos_limit : Int
  screenline_cpu_clock : Nat
  deriving DecidableEq, Repr

/-- Every variable holds a value of its C type. -/
def ClockState.WF (s : ClockState) : Prop :=
  INT_MIN ≤ s.tv_mode ∧ s.tv_mode ≤ INT_MAX ∧
  INT_MIN ≤ s.xpos ∧ s.xpos ≤ INT_MAX ∧
  INT_MIN ≤ s.xpos_limit ∧ s.xpos_limit ≤ INT_MAX ∧
  s.screenline_cpu_clock < UINT_MOD

instance (s : ClockState) : Decidable s.WF := by
  unfold ClockState.WF; infer_instance

/-- The two values `tv_mode` is defined to take: `TV_PAL` and `TV_NTSC`. -/
def tv_mode_legal (m : Int) : Prop := m = TV_PAL ∨ m = TV_NTSC

instance (m : Int) : Decidable (tv_mode_legal m) := by
  unfold tv_mode_legal; infer_instance

/-- Expansion of `#define max_ypos tv_mode`: number of scanlines per frame. -/
def max_ypos (s : ClockState) : Int := s.tv_mode

/-- Expansion of `#define cpu_clock (screenline_cpu_clock + xpos)`: the value of
the expression, of type `unsigned int`. -/
def cpu_clock (s : ClockState) : Nat := uaddInt s.screenline_cpu_clock s.xpos

/-- Evaluation of the expression `cpu_clock` in state-passing form: the value
read and the state after the evaluation. The expression
`(screenline_cpu_clock + xpos)` holds no assignment. -/
def currentClock (s : ClockState) : Nat × ClockState := (cpu_clock s, s)

/-- Modelled from the spec: `beginScanline()`, whose code is not in `atari.h`.
"resets `cyclePosition` to zero for the new scanline, advances
`scanlineBaseClock` by the fixed per-scanline cycle budget". -/
def beginScanline (s : ClockState) : ClockState :=
  { s with xpos := 0, screenline_cpu_clock := uaddInt s.screenline_cpu_clock LINE_C }

/-- Modelled from the spec: `advanceTo(n)`, whose code is not in `atari.h`.
"sets `cyclePosition` to `n`". -/
def advanceTo (n : Int) (s : ClockState) : ClockState :=
  { s with xpos := n }

/-- A clock state in which the last instruction overshot the scanline:
`xpos = 120 >= LINE_C`, at the start of a frame. -/
def overshootState : ClockState :=
  { tv_mode := 312, xpos := 120, xpos_limit := 114, screenline_cpu_clock := 0 }

/-- A clock state whose base clock is one scanline short of the end of the
`unsigned int` range, with `xpos` in the normal range. -/
def wrapState : ClockState :=
  { tv_mode := 312, xpos := 0, xpos_limit := 114, screenline_cpu_clock := 4294967200 }

/-- A clock state in the middle of a scanline. -/
def midlineState : ClockState :=
  { tv_mode := 262, xpos := 57, xpos_limit := 114, screenline_cpu_clock := 1140 }

/-! ## ATR format header -/

/-- Value of `#define MAGIC1 0x96`. -/
def MAGIC1 : Nat := 0x96

/-- Value of `#define MAGIC2 0x02`. -/
def MAGIC2 : Nat := 0x02

/-- The members of `struct ATR_Header`, in declaration order. -/
inductive ATR_Member
  | magic1 | magic2 | seccountlo | seccounthi | secsizelo | secsizehi
  | hiseccountlo | hiseccounthi | gash | writeprotect
  deriving DecidableEq, Repr

/-- One member declaration of a C struct: its name, the size and alignment in
bytes of its element type, and the number of elements (1 for a scalar). -/
structure MemberDecl (N : Type) where
  name : N
  elemSize : Nat
  elemAlign : Nat
  count : Nat

/-- Number of bytes a member occupies. -/
def MemberDecl.bytes {N : Type} (m : MemberDecl N) : Nat := m.elemSize * m.count

/-- A member of type `unsigned char` or `unsigned char[count]`: the header
requires one byte per `char`, and a byte has alignment 1. -/
def ucharMember {N : Type} (name : N) (count : Nat) : MemberDecl N :=
  { name := name, elemSize := 1, elemAlign := 1, count := count }

/-- Smallest multiple of `a` that is at least `off`. -/
def alignUp (off a : Nat) : Nat := ((off + a - 1) / a) * a

/-- Offsets of the members of a struct laid out in declaration order from
offset `off`: each member starts at the next multiple of its alignment. -/
def layoutFrom {N : Type} : Nat → List (MemberDecl N) → List (N × Nat)
  | _, [] => []
  | off, m :: ms =>
    (m.name, alignUp off m.elemAlign) :: layoutFrom (alignUp off m.elemAlign + m.bytes) ms

/-- Offset just past the last member. -/
def layoutEnd {N : Type} : Nat → List (MemberDecl N) → Nat
  | off, [] => off
  | off, m :: ms => layoutEnd (alignUp off m.elemAlign + m.bytes) ms

/-- Alignment of a struct: the largest alignment of a member. -/
def structAlign {N : Type} (ms : List (MemberDecl N)) : Nat :=
  ms.foldl (fun a m => max a m.elemAlign) 1

/-- Value of `sizeof` for a struct: the end of the last member, rounded up to
the alignment of the struct. -/
def structSize {N : Type} (ms : List (MemberDecl N)) : Nat :=
  alignUp (layoutEnd 0 ms) (structAlign ms)

/-- Sum of the sizes of the members, padding not counted. -/
def memberBytes {N : Type} (ms : List (MemberDecl N)) : Nat :=
  (ms.map MemberDecl.bytes).sum

/-- The declaration of `struct ATR_Header`: nine `unsigned char` members and
`unsigned char gash[7]`. -/
def ATR_Header.decl : List (MemberDecl ATR_Member) :=
  [ ucharMember .magic1 1, ucharMember .magic2 1,
    ucharMember .seccountlo 1, ucharMember .seccounthi 1,
    ucharMember .secsizelo 1, ucharMember .secsizehi 1,
    ucharMember .hiseccountlo 1, ucharMember .hiseccounthi 1,
    ucharMember .gash 7, ucharMember .writeprotect 1 ]

/-- Offset of a member of `struct ATR_Header` (`offsetof`). -/
def ATR_Header.offsetOf (m : ATR_Member) : Nat :=
  ((layoutFrom 0 ATR_Header.decl).lookup m).getD 0

/-- Number of bytes of a member of `struct ATR_Header`. -/
def ATR_Header.bytesOf (m : ATR_Member) : Nat :=
  ((ATR_Header.decl.find? (fun d => d.name = m)).map MemberDecl.bytes).getD 0

/-- A value of `struct ATR_Header`. -/
structure ATR_Header where
  magic1 : Nat
  magic2 : Nat
  seccountlo : Nat
  seccounthi : Nat
  secsizelo : Nat
  secsizehi : Nat
  hiseccountlo : Nat
  hiseccounthi : Nat
  gash : List Nat
  writeprotect : Nat
  deriving DecidableEq, Repr

/-- The bytes of member `m` inside the object representation `b`. -/
def ATR_Header.memberBytesIn (b : List Nat) (m : ATR_Member) : List Nat :=
  (b.drop (ATR_Header.offsetOf m)).take (ATR_Header.bytesOf m)

/-- The scalar member `m` inside the object representation `b`. -/
def ATR_Header.scalarIn (b : List Nat) (m : ATR_Member) : Nat :=
  (ATR_Header.memberBytesIn b m).headD 0

/-- The struct value whose object representation is the byte sequence `b`
(what reading `sizeof (struct ATR_Header)` bytes into the struct yields);
`none` when `b` has another length. -/
def ATR_Header.ofBytes (b : List Nat) : Option ATR_Header :=
  if b.length = structSize ATR_Header.decl then
    some
      { magic1 := ATR_Header.scalarIn b .magic1
        magic2 := ATR_Header.scalarIn b .magic2
        seccountlo := ATR_Header.scalarIn b .seccountlo
        seccounthi := ATR_Header.scalarIn b .seccounthi
        secsizelo := ATR_Header.scalarIn b .secsizelo
        secsizehi := ATR_Header.scalarIn b .secsizehi
        hiseccountlo := ATR_Header.scalarIn b .hiseccountlo
        hiseccounthi := ATR_Header.scalarIn b .hiseccounthi
        gash := ATR_Header.memberBytesIn b .gash
        writeprotect := ATR_Header.scalarIn b .writeprotect }
  else none

/-- The spec's "little-endian 16-bit" field at offset `off` of a byte
sequence: the byte at `off` is the low byte, the byte at `off + 1` the high. -/
def le16 (b : List Nat) (off : Nat) : Nat := b.getD off 0 + 256 * b.getD (off + 1) 0

/-! ## File types -/

/-- Value of `#define AFILE_ERROR 0`. -/
def AFILE_ERROR : Nat := 0
/-- Value of `#define AFILE_ATR 1`. -/
def AFILE_ATR : Nat := 1
/-- Value of `#define AFILE_XFD 2`. -/
def AFILE_XFD : Nat := 2
/-- Value of `#define AFILE_ATR_GZ 3`. -/
def AFILE_ATR_GZ : Nat := 3
/-- Value of `#define AFILE_XFD_GZ 4`. -/
def AFILE_XFD_GZ : Nat := 4
/-- Value of `#define AFILE_DCM 5`. -/
def AFILE_DCM : Nat := 5
/-- Value of `#define AFILE_XEX 6`. -/
def AFILE_XEX : Nat := 6
/-- Value of `#define AFILE_BAS 7`. -/
def AFILE_BAS : Nat := 7
/-- Value of `#define AFILE_LST 8`. -/
def AFILE_LST : Nat := 8
/-- Value of `#define AFILE_CART 9`. -/
def AFILE_CART : Nat := 9
/-- Value of `#define AFILE_ROM 10`. -/
def AFILE_ROM : Nat := 10
/-- Value of `#define AFILE_CAS 11`. -/
def AFILE_CAS : Nat := 11
/-- Value of `#define AFILE_BOOT_TAPE 12`. -/
def AFILE_BOOT_TAPE : Nat := 12
/-- Value of `#define AFILE_STATE 13`. -/
def AFILE_STATE : Nat := 13
/-- Value of `#define AFILE_STATE_GZ 14`. -/
def AFILE_STATE_GZ : Nat := 14

/-- The file types named by the `AFILE_*` macros, in the order of the header. -/
inductive FileType
  | error | atr | xfd | atr_gz | xfd_gz | dcm | xex | bas | lst | cart | rom
  | cas | boot_tape | state | state_gz
  deriving DecidableEq, Repr

/-- All file types, in the order of the header. -/
def FileType.all : List FileType :=
  [ .error, .atr, .xfd, .atr_gz, .xfd_gz, .dcm, .xex, .bas, .lst, .cart, .rom,
    .cas, .boot_tape, .state, .state_gz ]

/-- The integer the header defines for a file type. -/
def FileType.code : FileType → Nat
  | .error => AFILE_ERROR
  | .atr => AFILE_ATR
  | .xfd => AFILE_XFD
  | .atr_gz => AFILE_ATR_GZ
  | .xfd_gz => AFILE_XFD_GZ
  | .dcm => AFILE_DCM
  | .xex => AFILE_XEX
  | .bas => AFILE_BAS
  | .lst => AFILE_LST
  | .cart => AFILE_CART
  | .rom => AFILE_ROM
  | .cas => AFILE_CAS
  | .boot_tape => AFILE_BOOT_TAPE
  | .state => AFILE_STATE
  | .state_gz => AFILE_STATE_GZ

/-! ## Escape codes -/

/-- The enumerators of `enum ESCAPE`. -/
inductive ESCAPE
  | ESC_SIOV
  | ESC_EHOPEN | ESC_EHCLOS | ESC_EHREAD | ESC_EHWRIT | ESC_EHSTAT | ESC_EHSPEC
  | ESC_KHOPEN | ESC_KHCLOS | ESC_KHREAD | ESC_KHWRIT | ESC_KHSTAT | ESC_KHSPEC
  | ESC_BINLOADER_CONT
  | ESC_COPENLOAD | ESC_COPENSAVE
  | ESC_PHOPEN | ESC_PHCLOS | ESC_PHREAD | ESC_PHWRIT | ESC_PHSTAT | ESC_PHSPEC
  | ESC_PHINIT
  | ESC_HHOPEN | ESC_HHCLOS | ESC_HHREAD | ESC_HHWRIT | ESC_HHSTAT | ESC_HHSPEC
  | ESC_HHINIT
  deriving DecidableEq, Repr

/-- Values of the enumerators of a C enum declaration, each given with its
initialiser when it has one: an enumerator without initialiser gets the
value of the previous one plus one, the first one gets 0. -/
def enumValues {N : Type} : Nat → List (N × Option Nat) → List (N × Nat)
  | _, [] => []
  | next, (e, none) :: rest => (e, next) :: enumValues (next + 1) rest
  | _, (e, some v) :: rest => (e, v) :: enumValues (v + 1) rest

/-- The declaration of `enum ESCAPE`: the enumerators in source order with
their initialisers. -/
def ESCAPE.decl : List (ESCAPE × Option Nat) :=
  [ (.ESC_SIOV, none),
    (.ESC_EHOPEN, none), (.ESC_EHCLOS, none), (.ESC_EHREAD, none),
    (.ESC_EHWRIT, none), (.ESC_EHSTAT, none), (.ESC_EHSPEC, none),
    (.ESC_KHOPEN, none), (.ESC_KHCLOS, none), (.ESC_KHREAD, none),
    (.ESC_KHWRIT, none), (.ESC_KHSTAT, none), (.ESC_KHSPEC, none),
    (.ESC_BINLOADER_CONT, none),
    (.ESC_COPENLOAD, some 0xa8), (.ESC_COPENSAVE, some 0xa9),
    (.ESC_PHOPEN, some 0xb0), (.ESC_PHCLOS, some 0xb1), (.ESC_PHREAD, some 0xb2),
    (.ESC_PHWRIT, some 0xb3), (.ESC_PHSTAT, some 0xb4), (.ESC_PHSPEC, some 0xb5),
    (.ESC_PHINIT, some 0xb6),
    (.ESC_HHOPEN, some 0xc0), (.ESC_HHCLOS, some 0xc1), (.ESC_HHREAD, some 0xc2),
    (.ESC_HHWRIT, some 0xc3), (.ESC_HHSTAT, some 0xc4), (.ESC_HHSPEC, some 0xc5),
    (.ESC_HHINIT, some 0xc6) ]

/-- All enumerators of `enum ESCAPE`, in source order. -/
def ESCAPE.all : List ESCAPE := ESCAPE.decl.map Prod.fst

/-- The integer value of an enumerator of `enum ESCAPE`. -/
def ESCAPE.code (e : ESCAPE) : Nat := ((enumValues 0 ESCAPE.decl).lookup e).getD 0

/-- The groups of `enum ESCAPE`, after the comments that head them: the low
group (SIO patch, E: and K: handlers, executable loader), "Cassette
emulation", "Printer" and "H: device". -/
inductive EscBand
  | low | cassette | printer | hdevice
  deriving DecidableEq, Repr

/-- The group an enumerator is declared in. -/
def ESCAPE.band : ESCAPE → EscBand
  | .ESC_SIOV => .low
  | .ESC_EHOPEN => .low | .ESC_EHCLOS => .low | .ESC_EHREAD => .low
  | .ESC_EHWRIT => .low | .ESC_EHSTAT => .low | .ESC_EHSPEC => .low
  | .ESC_KHOPEN => .low | .ESC_KHCLOS => .low | .ESC_KHREAD => .low
  | .ESC_KHWRIT => .low | .ESC_KHSTAT => .low | .ESC_KHSPEC => .low
  | .ESC_BINLOADER_CONT => .low
  | .ESC_COPENLOAD => .cassette | .ESC_COPENSAVE => .cassette
  | .ESC_PHOPEN => .printer | .ESC_PHCLOS => .printer | .ESC_PHREAD => .printer
  | .ESC_PHWRIT => .printer | .ESC_PHSTAT => .printer | .ESC_PHSPEC => .printer
  | .ESC_PHINIT => .printer
  | .ESC_HHOPEN => .hdevice | .ESC_HHCLOS => .hdevice | .ESC_HHREAD => .hdevice
  | .ESC_HHWRIT => .hdevice | .ESC_HHSTAT => .hdevice | .ESC_HHSPEC => .hdevice
  | .ESC_HHINIT => .hdevice

/-- The enumerators of a group, in source order. -/
def bandMembers (b : EscBand) : List ESCAPE := ESCAPE.all.filter (fun e => e.band = b)

/-- The values of the enumerators of a group, in source order. -/
def bandCodes (b : EscBand) : List Nat := (bandMembers b).map ESCAPE.code

instance (l₁ l₂ : List Nat) : Decidable (l₁.Disjoint l₂) :=
  decidable_of_iff (∀ a ∈ l₁, a ∉ l₂) List.disjoint_left.symm

/-- The six device handler operations the enumerator names end in:
`OPEN`, `CLOS`, `READ`, `WRIT`, `STAT`, `SPEC`. -/
inductive DevOp
  | OPEN | CLOS | READ | WRIT | STAT | SPEC
  deriving DecidableEq, Repr

/-- All six operations, in the order open, close, read, write, status, special. -/
def DevOp.all : List DevOp := [.OPEN, .CLOS, .READ, .WRIT, .STAT, .SPEC]

/-- Position of an operation in the order open, close, read, write, status,
special. -/
def DevOp.index : DevOp → Nat
  | .OPEN => 0 | .CLOS => 1 | .READ => 2 | .WRIT => 3 | .STAT => 4 | .SPEC => 5

/-- The printer enumerator `ESC_PH<op>`. -/
def printerEsc : DevOp → ESCAPE
  | .OPEN => .ESC_PHOPEN | .CLOS => .ESC_PHCLOS | .READ => .ESC_PHREAD
  | .WRIT => .ESC_PHWRIT | .STAT => .ESC_PHSTAT | .SPEC => .ESC_PHSPEC

/-- The H: device enumerator `ESC_HH<op>`. -/
def hdeviceEsc : DevOp → ESCAPE
  | .OPEN => .ESC_HHOPEN | .CLOS => .ESC_HHCLOS | .READ => .ESC_HHREAD
  | .WRIT => .ESC_HHWRIT | .STAT => .ESC_HHSTAT | .SPEC => .ESC_HHSPEC

/-! ## Escape registry -/

/-- Modelled from the spec: the `EscapeEntry` of the data model, "a pairing of
(memory address, one-byte escape code, handler)"; `H` stands for
`EscFunctionType`. The code of the registry is not in `atari.h`. -/
structure EscapeEntry (H : Type) where
  address : Nat
  code : Nat
  handler : H

/-- Modelled from the spec: the registry, "a pure code→handler mapping" in
which "a given escape code maps to at most one active handler at a time". -/
def EscRegistry (H : Type) : Type := Nat → Option (EscapeEntry H)

/-- What a dispatch does: it calls a handler, or it reports an unhandled
escape code. -/
inductive EscEvent (H : Type)
  | call (h : H)
  | unhandled (code : Nat)
  deriving DecidableEq, Repr

/-- Modelled from the spec: `install(address, code, handler)`, declared as
`Atari800_AddEsc`, whose body is not in `atari.h`: records the handler for
`code`, "silently replacing any prior handler for the same `code`". -/
def Atari800_AddEsc {H : Type} (address esc_code : Nat) (function : H)
    (r : EscRegistry H) : EscRegistry H :=
  fun c => if c = esc_code then
    some { address := address, code := esc_code, handler := function } else r c

/-- Modelled from the spec: `installWithReturn(address, code, handler)`,
declared as `Atari800_AddEscRts`, whose body is not in `atari.h`: "same as
above", the return instruction after the marker being the caller's convention. -/
def Atari800_AddEscRts {H : Type} (address esc_code : Nat) (function : H)
    (r : EscRegistry H) : EscRegistry H :=
  Atari800_AddEsc address esc_code function r

/-- Modelled from the spec: `remove(code)`, declared as `Atari800_RemoveEsc`,
whose body is not in `atari.h`: "deregisters the handler for `code`; no-op if
absent". -/
def Atari800_RemoveEsc {H : Type} (esc_code : Nat) (r : EscRegistry H) : EscRegistry H :=
  fun c => if c = esc_code then none else r c

/-- Modelled from the spec: `dispatch(code)`, declared as `Atari800_RunEsc`,
whose body is not in `atari.h`: "looks up and invokes the handler for `code`",
and "reports an unhandled-escape condition" if no handler is registered. The
result is the list of events of the dispatch. -/
def Atari800_RunEsc {H : Type} (r : EscRegistry H) (esc_code : Nat) : List (EscEvent H) :=
  match r esc_code with
  | some e => [EscEvent.call e.handler]
  | none => [EscEvent.unhandled esc_code]

/-- The handlers a list of events calls. -/
def calledHandlers {H : Type} : List (EscEvent H) → List H
  | [] => []
  | .call h :: es => h :: calledHandlers es
  | .unhandled _ :: es => calledHandlers es

/-! ## Theorems: scanline clock -/

/-- The conversion to `unsigned int` followed by the unsigned addition is the
integer sum reduced modulo `2 ^ 32`. -/
theorem uaddInt_eq_emod (u : Nat) (i : Int) :
    (uaddInt u i : Int) = ((u : Int) + i) % 4294967296 := by
  unfold uaddInt toUnsigned UINT_MOD
  norm_num
  omega

/-- Without overflow and with a non-negative `int` operand, `u + i` is exact. -/
theorem uaddInt_exact (u : Nat) (i : Int) (h0 : 0 ≤ i) (h1 : (u : Int) + i < 4294967296) :
    (uaddInt u i : Int) = (u : Int) + i := by
  rw [uaddInt_eq_emod]
  omega

/-- C1: for every clock state, `cpu_clock` is `screenline_cpu_clock + xpos` in unsigned 32-bit arithmetic,
that is the integer sum modulo `2 ^ 32`, and the exact sum when `xpos >= 0` and
the sum is below `2 ^ 32`; evaluating it yields that value and leaves `xpos`,
`xpos_limit`, `screenline_cpu_clock` and `tv_mode` unchanged. -/
theorem cpu_clock_is_unsigned_sum_and_pure_read (s : ClockState) :
    (cpu_clock s : Int) = ((s.screenline_cpu_clock : Int) + s.xpos) % 2 ^ 32 ∧
    cpu_clock s < 2 ^ 32 ∧
    (0 ≤ s.xpos → (s.screenline_cpu_clock : Int) + s.xpos < 2 ^ 32 →
      (cpu_clock s : Int) = (s.screenline_cpu_clock : Int) + s.xpos) ∧
    (currentClock s).1 = cpu_clock s ∧
    (currentClock s).2.xpos = s.xpos ∧
    (currentClock s).2.xpos_limit = s.xpos_limit ∧
    (currentClock s).2.screenline_cpu_clock = s.screenline_cpu_clock ∧
    (currentClock s).2.tv_mode = s.tv_mode := by
  have hmod := uaddInt_eq_emod s.screenline_cpu_clock s.xpos
  refine ⟨?_, ?_, ?_, rfl, rfl, rfl, rfl, rfl⟩
  · simpa [cpu_clock] using hmod
  · have : (cpu_clock s : Int) < 4294967296 := by
      unfold cpu_clock; rw [hmod]; omega
    norm_num
    omega
  · intro h0 h1
    norm_num at h1
    exact uaddInt_exact _ _ h0 h1

/-- Witness of C1 at a state in the middle of a scanline: the clock reads
`1140 + 57`. -/
theorem cpu_clock_is_unsigned_sum_and_pure_read_witness :
    midlineState.WF ∧ cpu_clock midlineState = 1197 ∧
    (currentClock midlineState).2 = midlineState :=
  ⟨by decide,
   by
    have h := (cpu_clock_is_unsigned_sum_and_pure_read midlineState).2.2.1
      (by decide) (by decide)
    have : (cpu_clock midlineState : Int) = 1197 := h
    exact_mod_cast this,
   rfl⟩

/-- C4, as stated, fails: in a state with `xpos = 120 >= LINE_C` (an overshoot
the header allows) the clock read after `beginScanline()` is 114, below the 120
read before it; and in a state with `xpos = 0` whose base clock is within one
scanline of `2 ^ 32` the clock wraps from 4294967200 to 18. -/
theorem cpu_clock_not_increasing_after_overshoot :
    (overshootState.WF ∧ 0 ≤ overshootState.xpos ∧ LINE_C ≤ overshootState.xpos ∧
      cpu_clock overshootState = 120 ∧ cpu_clock (beginScanline overshootState) = 114 ∧
      ¬ cpu_clock overshootState < cpu_clock (beginScanline overshootState)) ∧
    (wrapState.WF ∧ 0 ≤ wrapState.xpos ∧
      cpu_clock wrapState = 4294967200 ∧ cpu_clock (beginScanline wrapState) = 18 ∧
      ¬ cpu_clock wrapState < cpu_clock (beginScanline wrapState)) := by
  decide

/-- C4, amended: for every clock state with `0 <= xpos < LINE_C` whose base
clock does not wrap on the step (`screenline_cpu_clock + LINE_C < 2 ^ 32`), the
clock read right after `beginScanline()` is strictly greater than the clock
read right before it. -/
theorem cpu_clock_increases_across_beginScanline (s : ClockState)
    (h0 : 0 ≤ s.xpos) (h1 : s.xpos < LINE_C)
    (hw : (s.screenline_cpu_clock : Int) + LINE_C < 2 ^ 32) :
    (beginScanline s).xpos = 0 ∧
    ((beginScanline s).screenline_cpu_clock : Int) = (s.screenline_cpu_clock : Int) + LINE_C ∧
    cpu_clock s < cpu_clock (beginScanline s) := by
  have hw2 : (s.screenline_cpu_clock : Int) + LINE_C < 4294967296 := by
    norm_num at hw; exact hw
  have hL : LINE_C = 114 := rfl
  have hb : ((beginScanline s).screenline_cpu_clock : Int)
      = (s.screenline_cpu_clock : Int) + LINE_C :=
    uaddInt_exact _ _ (by decide) hw2
  have hbefore : (cpu_clock s : Int) = (s.screenline_cpu_clock : Int) + s.xpos :=
    uaddInt_exact _ _ h0 (by omega)
  have hafter : (uaddInt (beginScanline s).screenline_cpu_clock 0 : Int)
      = ((beginScanline s).screenline_cpu_clock : Int) + 0 :=
    uaddInt_exact _ _ (le_refl _) (by rw [hb]; omega)
  refine ⟨rfl, hb, ?_⟩
  have : (cpu_clock s : Int) < (cpu_clock (beginScanline s) : Int) := by
    show _ < (uaddInt (beginScanline s).screenline_cpu_clock 0 : Int)
    rw [hbefore, hafter, hb]; omega
  exact_mod_cast this

/-- Witness of the amended C4 in the middle of a scanline: the clock goes from
1197 to 1254. -/
theorem cpu_clock_increases_across_beginScanline_witness :
    midlineState.WF ∧ cpu_clock midlineState < cpu_clock (beginScanline midlineState) :=
  ⟨by decide,
   (cpu_clock_increases_across_beginScanline midlineState (by decide) (by decide)
      (by decide)).2.2⟩

/-- C5: `TV_PAL` and `TV_NTSC` are the two legal values of `tv_mode`, they
differ, and for every legal `tv_mode` the scanline count `max_ypos` is
`tv_mode` itself, so it is 312 for PAL and 262 for NTSC. -/
theorem max_ypos_of_legal_tv_mode :
    TV_PAL = 312 ∧ TV_NTSC = 262 ∧ TV_PAL ≠ TV_NTSC ∧
    {m : Int | tv_mode_legal m} = {TV_PAL, TV_NTSC} ∧
    Set.ncard {m : Int | tv_mode_legal m} = 2 ∧
    ∀ s : ClockState, tv_mode_legal s.tv_mode →
      max_ypos s = s.tv_mode ∧ (max_ypos s = 312 ∨ max_ypos s = 262) ∧
      (s.tv_mode = TV_PAL → max_ypos s = 312) ∧
      (s.tv_mode = TV_NTSC → max_ypos s = 262) := by
  have hne : TV_PAL ≠ TV_NTSC := by decide
  have hset : {m : Int | tv_mode_legal m} = {TV_PAL, TV_NTSC} := by
    ext m
    simp [tv_mode_legal]
  refine ⟨rfl, rfl, hne, hset, ?_, ?_⟩
  · rw [hset]
    exact Set.ncard_pair hne
  · intro s hl
    refine ⟨rfl, ?_, ?_, ?_⟩
    · rcases hl with h | h
      · left; simpa [max_ypos, TV_PAL] using h
      · right; simpa [max_ypos, TV_NTSC] using h
    · intro h; simpa [max_ypos, TV_PAL] using h
    · intro h; simpa [max_ypos, TV_NTSC] using h

/-- Witness of C5 at an NTSC state: 262 scanlines per frame. -/
theorem max_ypos_of_legal_tv_mode_witness :
    tv_mode_legal midlineState.tv_mode ∧ max_ypos midlineState = 262 :=
  ⟨by decide,
   (max_ypos_of_legal_tv_mode.2.2.2.2.2 midlineState (by decide)).2.2.2 (by decide)⟩

/-- C10: `0 <= WSYNC_C < LINE_C` (106 < 114), and for every prior clock state,
after `advanceTo(WSYNC_C)` the position `xpos` is `WSYNC_C`, inside
`0 <= xpos < LINE_C`, and `cpu_clock` is `screenline_cpu_clock + WSYNC_C` (an
`unsigned int` sum, exact when below `2 ^ 32`), whatever `xpos` was before. -/
theorem cpu_clock_after_wsync (s : ClockState) (x : Int) :
    0 ≤ WSYNC_C ∧ WSYNC_C < LINE_C ∧ WSYNC_C = 106 ∧ LINE_C = 114 ∧
    (advanceTo WSYNC_C s).xpos = WSYNC_C ∧
    0 ≤ (advanceTo WSYNC_C s).xpos ∧ (advanceTo WSYNC_C s).xpos < LINE_C ∧
    (advanceTo WSYNC_C s).screenline_cpu_clock = s.screenline_cpu_clock ∧
    cpu_clock (advanceTo WSYNC_C s) = uaddInt s.screenline_cpu_clock WSYNC_C ∧
    cpu_clock (advanceTo WSYNC_C s) = (s.screenline_cpu_clock + 106) % 2 ^ 32 ∧
    (s.screenline_cpu_clock + 106 < 2 ^ 32 →
      cpu_clock (advanceTo WSYNC_C s) = s.screenline_cpu_clock + 106) ∧
    cpu_clock (advanceTo WSYNC_C { s with xpos := x }) = cpu_clock (advanceTo WSYNC_C s) := by
  have hmod : cpu_clock (advanceTo WSYNC_C s) = (s.screenline_cpu_clock + 106) % 2 ^ 32 := by
    have h := uaddInt_eq_emod s.screenline_cpu_clock WSYNC_C
    have hW : WSYNC_C = 106 := rfl
    have : (cpu_clock (advanceTo WSYNC_C s) : Int)
        = (((s.screenline_cpu_clock + 106) % 2 ^ 32 : Nat) : Int) := by
      show (uaddInt s.screenline_cpu_clock WSYNC_C : Int) = _
      rw [h, hW]
      norm_num
    exact_mod_cast this
  refine ⟨by decide, by decide, rfl, rfl, rfl, ?_, ?_, rfl, rfl, hmod, ?_, rfl⟩
  · show (0 : Int) ≤ WSYNC_C
    decide
  · show WSYNC_C < LINE_C
    decide
  intro h
  rw [hmod]
  exact Nat.mod_eq_of_lt h

/-- Witness of C10: from the middle of a scanline starting at clock 1140, the
stall resumes at clock 1246. -/
theorem cpu_clock_after_wsync_witness :
    cpu_clock (advanceTo WSYNC_C midlineState) = 1140 + 106 :=
  (cpu_clock_after_wsync midlineState 0).2.2.2.2.2.2.2.2.2.2.1 (by decide)

/-! ## Theorems: ATR header -/

/-- C2: `struct ATR_Header` is 16 bytes with no padding; in every 16-byte
header `magic1` is byte 0, `magic2` byte 1, the low sector count bytes 2-3, the
sector size bytes 4-5, the high sector count bytes 6-7, `gash` the seven bytes
8-14 and `writeprotect` byte 15; each 16-bit field has its low byte first, so
the sector size is `secsizelo + 256 * secsizehi`. -/
theorem ATR_Header_layout (b0 b1 b2 b3 b4 b5 b6 b7 b8 b9 b10 b11 b12 b13 b14 b15 : Nat) :
    structSize ATR_Header.decl = 16 ∧
    memberBytes ATR_Header.decl = structSize ATR_Header.decl ∧
    layoutFrom 0 ATR_Header.decl =
      [ (.magic1, 0), (.magic2, 1), (.seccountlo, 2), (.seccounthi, 3),
        (.secsizelo, 4), (.secsizehi, 5), (.hiseccountlo, 6), (.hiseccounthi, 7),
        (.gash, 8), (.writeprotect, 15) ] ∧
    ATR_Header.bytesOf .gash = 7 ∧
    ∃ h : ATR_Header,
      ATR_Header.ofBytes [b0, b1, b2, b3, b4, b5, b6, b7, b8, b9, b10, b11, b12, b13, b14, b15]
        = some h ∧
      h.magic1 = b0 ∧ h.magic2 = b1 ∧
      h.seccountlo = b2 ∧ h.seccounthi = b3 ∧
      h.secsizelo = b4 ∧ h.secsizehi = b5 ∧
      h.hiseccountlo = b6 ∧ h.hiseccounthi = b7 ∧
      h.gash = [b8, b9, b10, b11, b12, b13, b14] ∧
      h.writeprotect = b15 ∧
      le16 [b0, b1, b2, b3, b4, b5, b6, b7, b8, b9, b10, b11, b12, b13, b14, b15] 2
        = h.seccountlo + 256 * h.seccounthi ∧
      le16 [b0, b1, b2, b3, b4, b5, b6, b7, b8, b9, b10, b11, b12, b13, b14, b15] 4
        = h.secsizelo + 256 * h.secsizehi ∧
      le16 [b0, b1, b2, b3, b4, b5, b6, b7, b8, b9, b10, b11, b12, b13, b14, b15] 6
        = h.hiseccountlo + 256 * h.hiseccounthi := by
  refine ⟨by decide, by decide, by decide, by decide, _, rfl, ?_⟩
  exact ⟨rfl, rfl, rfl, rfl, rfl, rfl, rfl, rfl, rfl, rfl, rfl, rfl, rfl⟩

/-! ## Theorems: file types -/

/-- C9: the file type codes are pairwise distinct, `AFILE_ERROR` is 0, every
other file type has a nonzero code, the codes are the integers 0..14 in
order with no gap and no duplicate, and a code is 0 exactly for the error
type. -/
theorem AFILE_codes_are_0_to_14 :
    AFILE_ERROR = 0 ∧
    FileType.all.length = 15 ∧
    (∀ t : FileType, t ∈ FileType.all) ∧
    FileType.all.map FileType.code = List.range 15 ∧
    [ AFILE_ERROR, AFILE_ATR, AFILE_XFD, AFILE_ATR_GZ, AFILE_XFD_GZ, AFILE_DCM,
      AFILE_XEX, AFILE_BAS, AFILE_LST, AFILE_CART, AFILE_ROM, AFILE_CAS,
      AFILE_BOOT_TAPE, AFILE_STATE, AFILE_STATE_GZ ] = List.range 15 ∧
    (FileType.all.map FileType.code).Nodup ∧
    Function.Injective FileType.code ∧
    (∀ t : FileType, t.code ≤ 14) ∧
    (∀ t : FileType, t.code = 0 ↔ t = FileType.error) := by
  refine ⟨rfl, rfl, ?_, by decide, by decide, by decide, ?_, ?_, ?_⟩
  · intro t; cases t <;> decide
  · intro a b h
    cases a <;> cases b <;> first | rfl | exact absurd h (by decide)
  · intro t; cases t <;> decide
  · intro t; cases t <;> decide

/-! ## Theorems: escape codes -/

/-- C6: the 30 enumerators of `enum ESCAPE` have pairwise distinct values, each
in 0..255, and the four groups are pairwise disjoint contiguous intervals:
0..13 for `ESC_SIOV`..`ESC_BINLOADER_CONT`, 0xa8..0xa9 for the cassette,
0xb0..0xb6 for the printer and 0xc0..0xc6 for the H: device. -/
theorem ESCAPE_codes_distinct_and_banded :
    ESCAPE.all.length = 30 ∧
    (∀ e : ESCAPE, e ∈ ESCAPE.all) ∧
    (ESCAPE.all.map ESCAPE.code).Nodup ∧
    Function.Injective ESCAPE.code ∧
    (∀ e : ESCAPE, e.code ≤ 255) ∧
    ESCAPE.ESC_SIOV.code = 0 ∧ ESCAPE.ESC_BINLOADER_CONT.code = 13 ∧
    bandCodes .low = List.range' 0 14 ∧
    bandCodes .cassette = List.range' 0xa8 2 ∧
    bandCodes .printer = List.range' 0xb0 7 ∧
    bandCodes .hdevice = List.range' 0xc0 7 ∧
    List.Pairwise (fun a b => List.Disjoint (bandCodes a) (bandCodes b))
      [EscBand.low, EscBand.cassette, EscBand.printer, EscBand.hdevice] := by
  refine ⟨rfl, ?_, by decide, ?_, ?_, by decide, by decide, by decide, by decide,
    by decide, by decide, by decide⟩
  · intro e; cases e <;> decide
  · intro a b h
    cases a <;> cases b <;> first | rfl | exact absurd h (by decide)
  · intro e; cases e <;> decide

/-- C7: in the printer group (base `ESC_PHOPEN = 0xb0`) and in the H: group
(base `ESC_HHOPEN = 0xc0`) the codes of open, close, read, write, status and
special are base+0 .. base+5 in this order, and the init code is base+6
(`ESC_PHINIT = 0xb6`, `ESC_HHINIT = 0xc6`). -/
theorem printer_and_hdevice_codes_consecutive :
    ESCAPE.ESC_PHOPEN.code = 0xb0 ∧ ESCAPE.ESC_HHOPEN.code = 0xc0 ∧
    DevOp.all.map DevOp.index = [0, 1, 2, 3, 4, 5] ∧
    printerEsc .OPEN = .ESC_PHOPEN ∧ hdeviceEsc .OPEN = .ESC_HHOPEN ∧
    (∀ op : DevOp, (printerEsc op).code = ESCAPE.ESC_PHOPEN.code + op.index) ∧
    (∀ op : DevOp, (hdeviceEsc op).code = ESCAPE.ESC_HHOPEN.code + op.index) ∧
    DevOp.all.map (fun op => (printerEsc op).code) = [0xb0, 0xb1, 0xb2, 0xb3, 0xb4, 0xb5] ∧
    DevOp.all.map (fun op => (hdeviceEsc op).code) = [0xc0, 0xc1, 0xc2, 0xc3, 0xc4, 0xc5] ∧
    ESCAPE.ESC_PHINIT.code = ESCAPE.ESC_PHOPEN.code + 6 ∧ ESCAPE.ESC_PHINIT.code = 0xb6 ∧
    ESCAPE.ESC_HHINIT.code = ESCAPE.ESC_HHOPEN.code + 6 ∧ ESCAPE.ESC_HHINIT.code = 0xc6 := by
  refine ⟨by decide, by decide, by decide, rfl, rfl, ?_, ?_, by decide, by decide,
    by decide, by decide, by decide, by decide⟩
  · intro op; cases op <;> decide
  · intro op; cases op <;> decide

/-- An enumerator of the cassette group is `ESC_COPENLOAD` or `ESC_COPENSAVE`. -/
theorem cassette_band_cases (e : ESCAPE) (h : e.band = .cassette) :
    e = .ESC_COPENLOAD ∨ e = .ESC_COPENSAVE := by
  cases e <;> first | exact Or.inl rfl | exact Or.inr rfl | exact absurd h (by decide)

/-- C8, as stated, fails: the cassette group of `enum ESCAPE` holds two
enumerators, not six, so no assignment gives each of open, close, read, write,
status and special a cassette code of its own. -/
theorem cassette_band_has_no_six_codes :
    bandMembers .cassette = [.ESC_COPENLOAD, .ESC_COPENSAVE] ∧
    (bandMembers .cassette).length ≠ 6 ∧
    ¬ ∃ f : DevOp → ESCAPE, Function.Injective f ∧ ∀ op, (f op).band = .cassette := by
  refine ⟨by decide, by decide, ?_⟩
  rintro ⟨f, hinj, hband⟩
  have ho := cassette_band_cases _ (hband .OPEN)
  have hc := cassette_band_cases _ (hband .CLOS)
  have hr := cassette_band_cases _ (hband .READ)
  have hoc : f .OPEN ≠ f .CLOS := fun h => absurd (hinj h) (by decide)
  have hor : f .OPEN ≠ f .READ := fun h => absurd (hinj h) (by decide)
  have hcr : f .CLOS ≠ f .READ := fun h => absurd (hinj h) (by decide)
  rcases ho with ho | ho <;> rcases hc with hc | hc <;> rcases hr with hr | hr <;>
    simp_all

/-- C8, amended: the cassette family has a named group of exactly two escape
codes, `ESC_COPENLOAD = 0xa8` and `ESC_COPENSAVE = 0xa9`; the printer and the
H: device each have six escape codes, one each for open, close, read, write,
status and special. -/
theorem cassette_band_is_two_open_codes :
    bandMembers .cassette = [.ESC_COPENLOAD, .ESC_COPENSAVE] ∧
    (bandMembers .cassette).length = 2 ∧
    ESCAPE.ESC_COPENLOAD.code = 0xa8 ∧ ESCAPE.ESC_COPENSAVE.code = 0xa9 ∧
    bandCodes .cassette = [0xa8, 0xa9] ∧
    (∀ e : ESCAPE, e.band = .cassette ↔ e = .ESC_COPENLOAD ∨ e = .ESC_COPENSAVE) ∧
    Function.Injective printerEsc ∧ (∀ op, (printerEsc op).band = .printer) ∧
    Function.Injective hdeviceEsc ∧ (∀ op, (hdeviceEsc op).band = .hdevice) := by
  refine ⟨by decide, by decide, by decide, by decide, by decide, ?_, ?_, ?_, ?_, ?_⟩
  · intro e; cases e <;> decide
  · intro a b h
    cases a <;> cases b <;> first | rfl | exact absurd h (by decide)
  · intro op; cases op <;> rfl
  · intro a b h
    cases a <;> cases b <;> first | rfl | exact absurd h (by decide)
  · intro op; cases op <;> rfl

/-! ## Theorems: escape registry -/

/-- C3: for every registry, address, escape code `K` and handler `h`: after
`Atari800_AddEsc` or `Atari800_AddEscRts` registers `h` for `K`,
`Atari800_RunEsc(K)` calls exactly `h`; after `Atari800_RemoveEsc(K)`, also
right after such a registration, `Atari800_RunEsc(K)` calls no handler and
gives the unhandled-escape report for `K`. -/
theorem RunEsc_after_AddEsc_and_RemoveEsc {H : Type} (r : EscRegistry H)
    (address K : Nat) (h : H) :
    Atari800_RunEsc (Atari800_AddEsc address K h r) K = [EscEvent.call h] ∧
    Atari800_RunEsc (Atari800_AddEscRts address K h r) K = [EscEvent.call h] ∧
    calledHandlers (Atari800_RunEsc (Atari800_AddEsc address K h r) K) = [h] ∧
    calledHandlers (Atari800_RunEsc (Atari800_AddEscRts address K h r) K) = [h] ∧
    Atari800_RunEsc (Atari800_RemoveEsc K r) K = [EscEvent.unhandled K] ∧
    Atari800_RunEsc (Atari800_RemoveEsc K (Atari800_AddEsc address K h r)) K
      = [EscEvent.unhandled K] ∧
    Atari800_RunEsc (Atari800_RemoveEsc K (Atari800_AddEscRts address K h r)) K
      = [EscEvent.unhandled K] ∧
    calledHandlers (Atari800_RunEsc (Atari800_RemoveEsc K r) K) = [] := by
  simp [Atari800_RunEsc, Atari800_AddEsc, Atari800_AddEscRts, Atari800_RemoveEsc,
    calledHandlers]

end Atari
